import Mathlib

/-!
Shallow embedding of the location-history data core of the repository:
`location-cache.service.ts` (a TTL + LRU key/value cache with hit/miss/eviction
metrics) and `location-history.service.ts` (selection state, track loading,
derived statistics, adjacent-day prefetch).

Modelling conventions:
* a JavaScript `Map` is an insertion-ordered association list
  `List (String × _)`; `Map.set` replaces in place or appends, `Map.delete`
  removes the key, iteration order is list order;
* timestamps (`Date.now()`, `utcTime`, ttl) are integers (milliseconds);
  each method that reads the clock takes the current instant `now` as an
  explicit argument;
* JS numbers taking part in exact arithmetic (coordinates, speeds, the
  hit-rate) are rationals; `Math.round` is `jsRound` (round half toward +∞)
  and the JS remainder on integers is `Int.tmod` (sign of the dividend);
* `calculateDistance` (floating-point haversine with `sin`/`cos`/`atan2`)
  is kept as an explicit function parameter `dist`: every statement proved
  below holds for an arbitrary distance function;
* asynchronous remote calls are modelled by passing the eventual outcome
  (`some data` for success, `none` for failure after the retry policy is
  exhausted) as an argument to the state-transition function.
-/

namespace Spec2Proof

/-- One GPS fix, from `LocationPoint` in `location-history.interface.ts`. -/
structure LocationPoint where
  lat : ℚ
  lng : ℚ
  speed : ℚ
  heading : ℚ
  utcTime : ℤ
  deriving DecidableEq

/-! ### JavaScript `Map` model -/

/-- `Map.get`: first entry with the given key. -/
def jsGet {α : Type} : List (String × α) → String → Option α
  | [], _ => none
  | kv :: rest, k => if kv.1 = k then some kv.2 else jsGet rest k

/-- `Map.has`. -/
def jsHas {α : Type} (m : List (String × α)) (k : String) : Bool :=
  (jsGet m k).isSome

/-- `Map.set`: replace in place (keeping position) or append at the end. -/
def jsSet {α : Type} : List (String × α) → String → α → List (String × α)
  | [], k, v => [(k, v)]
  | kv :: rest, k, v =>
      if kv.1 = k then (k, v) :: rest else kv :: jsSet rest k v

/-- `Map.delete`. -/
def jsDelete {α : Type} : List (String × α) → String → List (String × α)
  | [], _ => []
  | kv :: rest, k =>
      if kv.1 = k then jsDelete rest k else kv :: jsDelete rest k

/-! ### Cache data model (`location-cache.service.ts`) -/

/-- `CacheEntry<T>` from `location-history.interface.ts`. -/
structure CacheEntry (α : Type) where
  data : α
  timestamp : ℤ
  ttl : ℤ
  accessCount : ℤ
  lastAccessed : ℤ
  deriving DecidableEq

/-- `CacheConfig`. -/
structure CacheConfig where
  maxSize : Nat
  defaultTtl : ℤ
  cleanupInterval : ℤ
  enableMetrics : Bool
  deriving DecidableEq

/-- The `config` literal of `LocationCacheService`. -/
def defaultConfig : CacheConfig :=
  { maxSize := 100, defaultTtl := 600000, cleanupInterval := 300000,
    enableMetrics := true }

/-- `CacheMetrics`. -/
structure CacheMetrics where
  hits : Nat
  misses : Nat
  evictions : Nat
  size : Nat
  hitRate : ℚ
  deriving DecidableEq

/-- The initial value of the `_metrics` signal. -/
def initialMetrics : CacheMetrics :=
  { hits := 0, misses := 0, evictions := 0, size := 0, hitRate := 0 }

/-- The state of `LocationCacheService`: the two `Map`s, the raw `_metrics`
signal, and the (mutable via `updateConfig`) configuration. -/
structure CacheState where
  config : CacheConfig
  availableDatesCache : List (String × CacheEntry (List ℤ))
  locationDataCache : List (String × CacheEntry (List LocationPoint))
  metricsSignal : CacheMetrics
  deriving DecidableEq

namespace LocationCacheService

/-- `isExpired(entry, now)`: `(now - entry.timestamp) > entry.ttl`. -/
def isExpired {α : Type} (entry : CacheEntry α) (now : ℤ) : Bool :=
  entry.ttl < now - entry.timestamp

/-- `updateMetrics(isHit)` acting on the raw metrics record. -/
def updateMetrics (cfg : CacheConfig) (m : CacheMetrics) (isHit : Bool) :
    CacheMetrics :=
  if !cfg.enableMetrics then m
  else
    { m with
      hits := if isHit then m.hits + 1 else m.hits,
      misses := if isHit then m.misses else m.misses + 1 }

/-- `updateEvictionMetrics(count)`. -/
def updateEvictionMetrics (cfg : CacheConfig) (m : CacheMetrics) (count : Nat) :
    CacheMetrics :=
  if !cfg.enableMetrics then m else { m with evictions := m.evictions + count }

/-- `getCachedData(cache, key)`: returns the read result together with the
map after the read (a lapsed entry is deleted, a live entry has its access
statistics updated in place) and the number of `updateEvictionMetrics`
increments performed by the read. -/
def getCachedData {α : Type} (cache : List (String × CacheEntry α))
    (key : String) (now : ℤ) :
    Option α × List (String × CacheEntry α) × Nat :=
  match jsGet cache key with
  | none => (none, cache, 0)
  | some entry =>
      if isExpired entry now then
        (none, jsDelete cache key, 1)
      else
        (some entry.data,
         jsSet cache key
           { entry with accessCount := entry.accessCount + 1,
                        lastAccessed := now },
         0)

/-- The loop body of `evictLeastRecentlyUsed`, folded over the entries in
insertion order with accumulator `(oldestKey, oldestTime)`. -/
def lruFold {α : Type} (cache : List (String × CacheEntry α))
    (acc : Option String × ℤ) : Option String × ℤ :=
  cache.foldl
    (fun acc kv =>
      if kv.2.lastAccessed < acc.2 then (some kv.1, kv.2.lastAccessed) else acc)
    acc

/-- `evictLeastRecentlyUsed(cache)`: `oldestTime` starts at `Date.now()`;
returns the map after the (possible) deletion and the number of evictions.
The deletion is guarded by `if (oldestKey)`, and `oldestKey` is a
`string | null`: both `null` and the empty string are falsy in JS, so a
least-recently-used entry keyed by `""` is never evicted either. -/
def evictLeastRecentlyUsed {α : Type} (cache : List (String × CacheEntry α))
    (now : ℤ) : List (String × CacheEntry α) × Nat :=
  match (lruFold cache (none, now)).1 with
  | none => (cache, 0)
  | some k => if k = "" then (cache, 0) else (jsDelete cache k, 1)

/-- `setCachedData(cache, key, data, ttl)`: evicts the least recently used
entry when the map is full and the key is new, then writes a fresh entry.
Returns the new map and the number of evictions performed. -/
def setCachedData {α : Type} (cfg : CacheConfig)
    (cache : List (String × CacheEntry α)) (key : String) (data : α)
    (ttl : ℤ) (now : ℤ) : List (String × CacheEntry α) × Nat :=
  let evicted :=
    if cfg.maxSize ≤ cache.length ∧ ¬ jsHas cache key then
      evictLeastRecentlyUsed cache now
    else (cache, 0)
  (jsSet evicted.1 key
     { data := data, timestamp := now, ttl := ttl, accessCount := 1,
       lastAccessed := now },
   evicted.2)

/-- `hasValidCacheEntry(cache, key)`: pure read, no mutation. -/
def hasValidCacheEntry {α : Type} (cache : List (String × CacheEntry α))
    (key : String) (now : ℤ) : Bool :=
  match jsGet cache key with
  | none => false
  | some entry => !(isExpired entry now)

/-- One map's half of `removeExpiredEntries()`: drops lapsed entries and
counts them. -/
def removeExpiredFrom {α : Type} (now : ℤ) :
    List (String × CacheEntry α) → List (String × CacheEntry α) × Nat
  | [] => ([], 0)
  | kv :: rest =>
      let r := removeExpiredFrom now rest
      if isExpired kv.2 now then (r.1, r.2 + 1) else (kv :: r.1, r.2)

/-- `getAvailableDates(key)` on the service state: the generic read plus the
hit/miss bookkeeping (`updateMetrics(result !== null)`); an expired entry
additionally counts one eviction inside `getCachedData`. -/
def getAvailableDates (s : CacheState) (key : String) (now : ℤ) :
    Option (List ℤ) × CacheState :=
  let r := getCachedData s.availableDatesCache key now
  let m := updateMetrics s.config
    (updateEvictionMetrics s.config s.metricsSignal r.2.2) r.1.isSome
  (r.1, { s with availableDatesCache := r.2.1, metricsSignal := m })

/-- `getLocationData(key)` on the service state. -/
def getLocationData (s : CacheState) (key : String) (now : ℤ) :
    Option (List LocationPoint) × CacheState :=
  let r := getCachedData s.locationDataCache key now
  let m := updateMetrics s.config
    (updateEvictionMetrics s.config s.metricsSignal r.2.2) r.1.isSome
  (r.1, { s with locationDataCache := r.2.1, metricsSignal := m })

/-- `setAvailableDates(key, data, ttl?)` (default ttl = `config.defaultTtl`). -/
def setAvailableDates (s : CacheState) (key : String) (data : List ℤ)
    (ttl : Option ℤ) (now : ℤ) : CacheState :=
  let r := setCachedData s.config s.availableDatesCache key data
    (ttl.getD s.config.defaultTtl) now
  { s with availableDatesCache := r.1,
           metricsSignal := updateEvictionMetrics s.config s.metricsSignal r.2 }

/-- `setLocationData(key, data, ttl?)` (default ttl = `config.defaultTtl * 2`,
location data is cached longer). -/
def setLocationData (s : CacheState) (key : String) (data : List LocationPoint)
    (ttl : Option ℤ) (now : ℤ) : CacheState :=
  let r := setCachedData s.config s.locationDataCache key data
    (ttl.getD (s.config.defaultTtl * 2)) now
  { s with locationDataCache := r.1,
           metricsSignal := updateEvictionMetrics s.config s.metricsSignal r.2 }

/-- `hasLocationData(key)`: returns the check result and the (unchanged)
service state — the source method performs no writes. -/
def hasLocationData (s : CacheState) (key : String) (now : ℤ) :
    Bool × CacheState :=
  (hasValidCacheEntry s.locationDataCache key now, s)

/-- `hasAvailableDates(key)`. -/
def hasAvailableDates (s : CacheState) (key : String) (now : ℤ) :
    Bool × CacheState :=
  (hasValidCacheEntry s.availableDatesCache key now, s)

/-- `resetMetrics()`. -/
def resetMetrics : CacheMetrics := initialMetrics

/-- `clearAll()`: drops both maps and resets the raw metrics. -/
def clearAll (s : CacheState) : CacheState :=
  { s with availableDatesCache := [], locationDataCache := [],
           metricsSignal := resetMetrics }

/-- `clearExpired()` / `removeExpiredEntries()`: sweeps both maps, adds the
removed count to the eviction counter, returns the count. -/
def clearExpired (s : CacheState) (now : ℤ) : Nat × CacheState :=
  let ra := removeExpiredFrom now s.availableDatesCache
  let rl := removeExpiredFrom now s.locationDataCache
  let count := ra.2 + rl.2
  (count,
   { s with availableDatesCache := ra.1, locationDataCache := rl.1,
            metricsSignal := updateEvictionMetrics s.config s.metricsSignal count })

/-- The `metrics` computed signal: the raw counters with `hitRate` recomputed
as a percentage and `size` recomputed from the two maps. -/
def metrics (s : CacheState) : CacheMetrics :=
  let totalRequests := s.metricsSignal.hits + s.metricsSignal.misses
  { s.metricsSignal with
    hitRate :=
      if 0 < totalRequests then
        ((s.metricsSignal.hits : ℚ) / (totalRequests : ℚ)) * 100
      else 0,
    size := s.availableDatesCache.length + s.locationDataCache.length }

end LocationCacheService

/-! ### History service (`location-history.service.ts`) -/

/-- `Math.round`: round half toward positive infinity. -/
def jsRound (q : ℚ) : ℤ := ⌊q + 1 / 2⌋

/-- `LocationStatistics` (the `bounds` LatLngBounds is modelled by its
south-west and north-east corners). -/
structure LocationStatistics where
  totalPoints : Nat
  totalDistance : ℚ
  maxSpeed : ℤ
  averageSpeed : ℚ
  duration : ℤ
  startTime : ℤ
  endTime : ℤ
  boundsSWLat : ℚ
  boundsSWLng : ℚ
  boundsNELat : ℚ
  boundsNELng : ℚ
  deriving DecidableEq

/-- `EnhancedLocationPoint` (the fields used by the statistics). -/
structure EnhancedLocationPoint where
  point : LocationPoint
  speedKmh : ℤ
  directionText : Option String
  distanceFromPrevious : Option ℚ
  deriving DecidableEq

/-- The state of `LocationHistoryService`: the subjects/signals plus the
injected cache service state. `selectedDate` is a calendar day modelled as
an integer epoch-day (`toDateString` is injective on calendar days, and
`setDate(getDate() + o)` is day arithmetic). -/
structure HistState where
  selectedDevice : Option ℤ
  selectedDate : Option ℤ
  availableDates : List (String × List ℤ)
  locationData : List LocationPoint
  loading : Bool
  error : Option String
  statistics : Option LocationStatistics
  lastUpdated : Option ℤ
  cache : CacheState
  deriving DecidableEq

namespace LocationHistoryService

/-- The cache key `` `${targetId}-${date.toDateString()}` `` for the track
cache. -/
def mkLocationKey (targetId : ℤ) (date : ℤ) : String :=
  toString targetId ++ "-" ++ toString date

/-- The `directions` array of `getDirectionText`. -/
def directions : List String := ["N", "NE", "E", "SE", "S", "SW", "W", "NW"]

/-- `getDirectionText(heading)`: `directions[Math.round(heading / 45) % 8]`.
The JS remainder keeps the sign of the dividend, and indexing an array with
a negative index yields `undefined` (modelled as `none`). -/
def getDirectionText (heading : ℚ) : Option String :=
  if (jsRound (heading / 45)).tmod 8 < 0 then none
  else directions.get? ((jsRound (heading / 45)).tmod 8).toNat

/-- One step of `enhanceLocationData`: the enhanced point built from a point
and its predecessor (if any). `speedKmh = Math.round(speed * 3.6)`. -/
def enhancePoint (dist : LocationPoint → LocationPoint → ℚ)
    (prev : Option LocationPoint) (p : LocationPoint) : EnhancedLocationPoint :=
  { point := p,
    speedKmh := jsRound (p.speed * (18 / 5)),
    directionText := getDirectionText p.heading,
    distanceFromPrevious := prev.map (fun q => dist q p) }

/-- Tail of `enhanceLocationData`: each point paired with its predecessor. -/
def enhanceFrom (dist : LocationPoint → LocationPoint → ℚ)
    (prev : LocationPoint) : List LocationPoint → List EnhancedLocationPoint
  | [] => []
  | p :: rest => enhancePoint dist (some prev) p :: enhanceFrom dist p rest

/-- `enhanceLocationData(data)`: index 0 has no `distanceFromPrevious`. -/
def enhanceLocationData (dist : LocationPoint → LocationPoint → ℚ) :
    List LocationPoint → List EnhancedLocationPoint
  | [] => []
  | p :: rest => enhancePoint dist none p :: enhanceFrom dist p rest

/-- `Math.max(...l)` over a nonempty integer list (guarded by the caller). -/
def maxList : List ℤ → ℤ
  | [] => 0
  | x :: xs => xs.foldl max x

/-- `Math.min(...l)` over a nonempty rational list. -/
def minListQ : List ℚ → ℚ
  | [] => 0
  | x :: xs => xs.foldl min x

/-- `Math.max(...l)` over a nonempty rational list. -/
def maxListQ : List ℚ → ℚ
  | [] => 0
  | x :: xs => xs.foldl max x

/-- The pure computation inside `updateStatistics(locations)`: `none` for an
empty track (the signal is set to `null`), otherwise the derived statistics.
`speeds` keeps only strictly positive (rounded km/h) speeds. -/
def updateStatistics (dist : LocationPoint → LocationPoint → ℚ)
    (locations : List LocationPoint) : Option LocationStatistics :=
  match locations with
  | [] => none
  | first :: _ =>
      let enhanced := enhanceLocationData dist locations
      let speeds := (enhanced.map (fun p => p.speedKmh)).filter (fun s => 0 < s)
      let distances := enhanced.map (fun p => p.distanceFromPrevious.getD 0)
      let totalDistance := distances.foldl (· + ·) 0
      let maxSpeed := if 0 < speeds.length then maxList speeds else 0
      let averageSpeed : ℚ :=
        if 0 < speeds.length then
          ((speeds.foldl (· + ·) 0 : ℤ) : ℚ) / (speeds.length : ℚ)
        else 0
      let last := locations.getLastD first
      let lats := locations.map (fun l => l.lat)
      let lngs := locations.map (fun l => l.lng)
      some
        { totalPoints := locations.length,
          totalDistance := totalDistance,
          maxSpeed := maxSpeed,
          averageSpeed := averageSpeed,
          duration := last.utcTime - first.utcTime,
          startTime := first.utcTime,
          endTime := last.utcTime,
          boundsSWLat := minListQ lats,
          boundsSWLng := minListQ lngs,
          boundsNELat := maxListQ lats,
          boundsNELng := maxListQ lngs }

/-- `setSelectedDevice(deviceId)`: push the device and `clearError()`. -/
def setSelectedDevice (s : HistState) (deviceId : Option ℤ) : HistState :=
  { s with selectedDevice := deviceId, error := none }

/-- `setSelectedDate(date)`: push the date and `clearError()`. -/
def setSelectedDate (s : HistState) (date : Option ℤ) : HistState :=
  { s with selectedDate := date, error := none }

/-- `getLocationData(targetId, date)` as a state transition. The remote
response (after timeout/retry) is the `outcome` argument: `some locations`
for a successful `code === 200` response, `none` for failure after the retry
policy is exhausted. Returns the new state, the emitted track, and whether
the remote was contacted. On success the source additionally schedules
`prefetchAdjacentDates` asynchronously (modelled separately by
`prefetchAdjacentDates` below). -/
def getLocationData (dist : LocationPoint → LocationPoint → ℚ) (s : HistState)
    (targetId : ℤ) (date : ℤ) (now : ℤ)
    (outcome : Option (List LocationPoint)) :
    HistState × List LocationPoint × Bool :=
  let key := mkLocationKey targetId date
  let r := LocationCacheService.getLocationData s.cache key now
  match r.1 with
  | some cached =>
      ({ s with cache := r.2, locationData := cached }, cached, false)
  | none =>
      let s1 := { s with cache := r.2, loading := true, error := none }
      match outcome with
      | some locations =>
          let c2 := LocationCacheService.setLocationData s1.cache key
            locations none now
          ({ s1 with
               cache := c2,
               locationData := locations,
               statistics := updateStatistics dist locations,
               lastUpdated := some now,
               loading := false },
           locations, true)
      | none =>
          ({ s1 with
               error := some "Failed to load location data",
               locationData := [],
               loading := false },
           [], true)

/-- JS truthiness of the selected device (`!device` is true for `null` and
for the number `0`). -/
def deviceTruthy : Option ℤ → Bool
  | none => false
  | some d => d ≠ 0

/-- `refreshData()`: `EMPTY` when there is no (truthy) selection; otherwise
the source computes the current selection's `cacheKey` (unused), calls
`cacheService.clearAll()` and re-runs `getLocationData`. -/
def refreshData (dist : LocationPoint → LocationPoint → ℚ) (s : HistState)
    (now : ℤ) (outcome : Option (List LocationPoint)) :
    HistState × List LocationPoint × Bool :=
  match s.selectedDate with
  | none => (s, [], false)
  | some date =>
      match s.selectedDevice with
      | none => (s, [], false)
      | some device =>
          if device = 0 then (s, [], false)
          else
            let s1 := { s with cache := LocationCacheService.clearAll s.cache }
            getLocationData dist s1 device date now outcome

/-- `prefetchAdjacentDates(targetId, currentDate)`: both `hasLocationData`
dedup checks run synchronously against the current cache; each issued fetch
later resolves with `outcome1` / `outcome2` (`some data` success written to
the cache only, `none` failure swallowed by `catchError(() => of([]))`).
Returns the new state and the list of offsets for which a fetch was issued. -/
def prefetchAdjacentDates (s : HistState) (targetId : ℤ) (date : ℤ) (now : ℤ)
    (outcome1 outcome2 : Option (List LocationPoint)) : HistState × List ℤ :=
  let key1 := mkLocationKey targetId (date + (-1))
  let key2 := mkLocationKey targetId (date + 1)
  let issue1 :=
    !LocationCacheService.hasValidCacheEntry s.cache.locationDataCache key1 now
  let issue2 :=
    !LocationCacheService.hasValidCacheEntry s.cache.locationDataCache key2 now
  let c1 :=
    if issue1 then
      match outcome1 with
      | some locations =>
          LocationCacheService.setLocationData s.cache key1 locations none now
      | none => s.cache
    else s.cache
  let c2 :=
    if issue2 then
      match outcome2 with
      | some locations =>
          LocationCacheService.setLocationData c1 key2 locations none now
      | none => c1
    else c1
  ({ s with cache := c2 },
   (if issue1 then [(-1 : ℤ)] else []) ++ (if issue2 then [(1 : ℤ)] else []))

end LocationHistoryService

/-! ### Association-list (JS `Map`) lemmas -/

theorem jsGet_jsSet_self {α : Type} (m : List (String × α)) (k : String) (v : α) :
    jsGet (jsSet m k v) k = some v := by
  induction m with
  | nil => simp [jsGet, jsSet]
  | cons kv rest ih =>
      by_cases h : kv.1 = k
      · simp [jsGet, jsSet, h]
      · simp [jsGet, jsSet, h, ih]

theorem jsGet_jsSet_ne {α : Type} (m : List (String × α)) (k k' : String)
    (v : α) (h : k' ≠ k) : jsGet (jsSet m k v) k' = jsGet m k' := by
  have hkk' : ¬ k = k' := fun hh => h hh.symm
  induction m with
  | nil => simp [jsGet, jsSet, hkk']
  | cons kv rest ih =>
      by_cases hk : kv.1 = k
      · have hkv : ¬ kv.1 = k' := by rw [hk]; exact hkk'
        simp [jsGet, jsSet, hk, hkk', hkv]
      · by_cases hk' : kv.1 = k'
        · simp [jsGet, jsSet, hk, hk', h]
        · simp [jsGet, jsSet, hk, hk', ih]

theorem jsGet_jsDelete_self {α : Type} (m : List (String × α)) (k : String) :
    jsGet (jsDelete m k) k = none := by
  induction m with
  | nil => simp [jsGet, jsDelete]
  | cons kv rest ih =>
      by_cases h : kv.1 = k
      · simp [jsDelete, h, ih]
      · simp [jsGet, jsDelete, h, ih]

theorem jsGet_jsDelete_ne {α : Type} (m : List (String × α)) (k k' : String)
    (h : k' ≠ k) : jsGet (jsDelete m k) k' = jsGet m k' := by
  have hkk' : ¬ k = k' := fun hh => h hh.symm
  induction m with
  | nil => simp [jsDelete]
  | cons kv rest ih =>
      by_cases hk : kv.1 = k
      · have hkv : ¬ kv.1 = k' := by rw [hk]; exact hkk'
        simp [jsGet, jsDelete, hk, hkv, hkk', ih]
      · by_cases hk' : kv.1 = k'
        · simp [jsGet, jsDelete, hk, hk', h]
        · simp [jsGet, jsDelete, hk, hk', ih]

theorem length_jsSet_new {α : Type} (m : List (String × α)) (k : String)
    (v : α) (h : jsGet m k = none) : (jsSet m k v).length = m.length + 1 := by
  induction m with
  | nil => simp [jsSet]
  | cons kv rest ih =>
      by_cases hk : kv.1 = k
      · simp [jsGet, hk] at h
      · simp only [jsGet, hk, if_neg hk, if_false] at h ⊢
        simp [jsSet, hk, ih h]

theorem jsGet_isSome_of_mem {α : Type} (m : List (String × α))
    (kv : String × α) (h : kv ∈ m) : (jsGet m kv.1).isSome = true := by
  induction m with
  | nil => simp at h
  | cons kv0 rest ih =>
      rcases List.mem_cons.1 h with h0 | h0
      · subst h0; simp [jsGet]
      · by_cases hk : kv0.1 = kv.1
        · simp [jsGet, hk]
        · simp [jsGet, hk, ih h0]

theorem jsGet_none_of_forall_ne {α : Type} (m : List (String × α))
    (k : String) (h : ∀ kv ∈ m, kv.1 ≠ k) : jsGet m k = none := by
  induction m with
  | nil => rfl
  | cons kv rest ih =>
      simp only [jsGet, if_neg (h kv (List.mem_cons_self kv rest))]
      exact ih (fun kv' h' => h kv' (List.mem_cons_of_mem _ h'))

theorem jsDelete_of_get_none {α : Type} (m : List (String × α)) (k : String)
    (h : jsGet m k = none) : jsDelete m k = m := by
  induction m with
  | nil => rfl
  | cons kv rest ih =>
      by_cases hk : kv.1 = k
      · simp [jsGet, hk] at h
      · simp only [jsGet, if_neg hk] at h
        simp [jsDelete, hk, ih h]

theorem length_jsDelete_mem {α : Type} (m : List (String × α)) (k : String)
    (hnd : m.Pairwise (fun a b => a.1 ≠ b.1))
    (hmem : (jsGet m k).isSome = true) :
    (jsDelete m k).length + 1 = m.length := by
  induction m with
  | nil => simp [jsGet] at hmem
  | cons kv rest ih =>
      rcases List.pairwise_cons.1 hnd with ⟨hhead, htail⟩
      by_cases hk : kv.1 = k
      · have hnone : jsGet rest k = none := by
          apply jsGet_none_of_forall_ne
          intro kv' h' hh
          exact hhead kv' h' (hk.trans hh.symm)
        simp [jsDelete, hk, jsDelete_of_get_none rest k hnone]
      · simp only [jsGet, if_neg hk] at hmem
        simp [jsDelete, hk, ih htail hmem]

/-! ### Shared concrete fixtures -/

/-- A distance function instance (the claims hold for every `dist`). -/
def zeroDist : LocationPoint → LocationPoint → ℚ := fun _ _ => 0

/-- A sample GPS fix. -/
def samplePoint : LocationPoint :=
  { lat := 1, lng := 2, speed := 5, heading := 90, utcTime := 1000 }

/-- An empty cache-service state with the default configuration. -/
def emptyCache : CacheState :=
  { config := defaultConfig, availableDatesCache := [],
    locationDataCache := [], metricsSignal := initialMetrics }

/-- A cache-service state whose raw counters record 3 hits and 1 miss. -/
def cacheState31 : CacheState :=
  { config := defaultConfig, availableDatesCache := [],
    locationDataCache := [],
    metricsSignal :=
      { hits := 3, misses := 1, evictions := 0, size := 0, hitRate := 0 } }

/-- Statistics of the single-sample track `[samplePoint]`. -/
def sampleStats : LocationStatistics :=
  { totalPoints := 1, totalDistance := 0, maxSpeed := 18, averageSpeed := 18,
    duration := 0, startTime := 1000, endTime := 1000, boundsSWLat := 1,
    boundsSWLng := 2, boundsNELat := 1, boundsNELng := 2 }

/-- A history-service state with a full current selection and loaded data. -/
def histFixture : HistState :=
  { selectedDevice := some 2, selectedDate := some 5, availableDates := [],
    locationData := [samplePoint], loading := false, error := none,
    statistics := some sampleStats, lastUpdated := some 50,
    cache := emptyCache }

/-! ### C1 — cache hit rate -/

open LocationCacheService in
/-- C1 (amended): the `metrics` computed signal reports
`hitRate = hits / (hits + misses) * 100` — a percentage, not a fraction —
whenever at least one request was recorded, and `0` when there have been no
requests. -/
theorem hitRate_is_percentage (s : CacheState) :
    (s.metricsSignal.hits + s.metricsSignal.misses = 0 →
      (metrics s).hitRate = 0) ∧
    (0 < s.metricsSignal.hits + s.metricsSignal.misses →
      (metrics s).hitRate =
        (s.metricsSignal.hits : ℚ) /
          ((s.metricsSignal.hits + s.metricsSignal.misses : ℕ) : ℚ) * 100) := by
  constructor
  · intro h
    simp [LocationCacheService.metrics, h]
  · intro h
    simp [LocationCacheService.metrics, h]

open LocationCacheService in
/-- C1 witness: after 3 hits and 1 miss the reported hit rate is
`3 / 4 * 100 = 75`. -/
theorem hitRate_is_percentage_witness :
    0 < cacheState31.metricsSignal.hits + cacheState31.metricsSignal.misses ∧
    (metrics cacheState31).hitRate =
      (cacheState31.metricsSignal.hits : ℚ) /
        ((cacheState31.metricsSignal.hits +
          cacheState31.metricsSignal.misses : ℕ) : ℚ) * 100 :=
  ⟨by norm_num [cacheState31], (hitRate_is_percentage cacheState31).2
    (by norm_num [cacheState31])⟩

open LocationCacheService in
/-- C1 counterexample: with 3 recorded hits and 1 recorded miss the reported
`hitRate` is `75`, not the fraction `0.75` the claim states. -/
theorem hitRate_not_a_fraction :
    cacheState31.metricsSignal.hits = 3 ∧
    cacheState31.metricsSignal.misses = 1 ∧
    (metrics cacheState31).hitRate = 75 ∧
    (metrics cacheState31).hitRate ≠ 3 / 4 := by
  refine ⟨rfl, rfl, ?_, ?_⟩ <;>
    norm_num [LocationCacheService.metrics, cacheState31]

/-! ### C3 — `setSelectedDevice` -/

open LocationHistoryService in
/-- C3 (amended): `setSelectedDevice(id)` sets `selectedDevice` to `id` and
clears `lastError`, and leaves every other field — `selectedDate`,
`currentTrack` (`locationData`), `currentStatistics`, `lastUpdated`,
`loading`, the availability state and both caches (entries and metrics) —
unchanged. -/
theorem setSelectedDevice_frame (s : HistState) (deviceId : Option ℤ) :
    (setSelectedDevice s deviceId).selectedDevice = deviceId ∧
    (setSelectedDevice s deviceId).error = none ∧
    (setSelectedDevice s deviceId).selectedDate = s.selectedDate ∧
    (setSelectedDevice s deviceId).locationData = s.locationData ∧
    (setSelectedDevice s deviceId).statistics = s.statistics ∧
    (setSelectedDevice s deviceId).loading = s.loading ∧
    (setSelectedDevice s deviceId).lastUpdated = s.lastUpdated ∧
    (setSelectedDevice s deviceId).availableDates = s.availableDates ∧
    (setSelectedDevice s deviceId).cache = s.cache := by
  simp [LocationHistoryService.setSelectedDevice]

open LocationHistoryService in
/-- C3 counterexample: from a state with a selected date, loaded track and
statistics, `setSelectedDevice(1)` leaves all three in place — it does not
reset `selectedDate`, `currentTrack` or `currentStatistics` as the claim
states. -/
theorem setSelectedDevice_does_not_reset_selection :
    (setSelectedDevice histFixture (some 1)).selectedDate ≠ none ∧
    (setSelectedDevice histFixture (some 1)).locationData ≠ [] ∧
    (setSelectedDevice histFixture (some 1)).statistics ≠ none := by
  simp [LocationHistoryService.setSelectedDevice, histFixture]

/-! ### C5 — compass labels -/

open LocationHistoryService in
/-- C5 (amended): for every nonnegative heading `h`, the compass label is
`directions[round(h / 45) mod 8]`, is 360-periodic
(`getDirectionText h = getDirectionText (h + 360)`), and is one of the
eight labels. The source performs no normalization into `[0, 360)`, so for
negative headings the index is negative and the lookup is `undefined` (see
the counterexample). -/
theorem compassLabel_periodic_nonneg (h : ℚ) (hh : 0 ≤ h) :
    getDirectionText h = getDirectionText (h + 360) ∧
    ∃ d ∈ directions, getDirectionText h = some d := by
  have hi0 : (0 : ℤ) ≤ jsRound (h / 45) := by
    unfold jsRound
    positivity
  have key : jsRound ((h + 360) / 45) = jsRound (h / 45) + 8 := by
    have h45 : (h + 360) / 45 = h / 45 + ((8 : ℤ) : ℚ) := by push_cast; ring
    rw [jsRound, h45, add_right_comm, Int.floor_add_int, jsRound]
  have htm : (jsRound (h / 45)).tmod 8 = jsRound (h / 45) % 8 :=
    Int.tmod_eq_emod hi0 (by norm_num)
  have htm8 : (jsRound (h / 45) + 8).tmod 8 = jsRound (h / 45) % 8 := by
    rw [Int.tmod_eq_emod (by omega) (by norm_num)]
    omega
  have hmod0 : 0 ≤ jsRound (h / 45) % 8 := Int.emod_nonneg _ (by norm_num)
  have hmod8 : jsRound (h / 45) % 8 < 8 := Int.emod_lt_of_pos _ (by norm_num)
  constructor
  · rw [getDirectionText, getDirectionText, key, htm, htm8]
  · rw [getDirectionText, htm, if_neg (not_lt.2 hmod0)]
    have hlen : (jsRound (h / 45) % 8).toNat < directions.length := by
      simp only [directions, List.length]
      omega
    exact ⟨directions.get ⟨(jsRound (h / 45) % 8).toNat, hlen⟩,
      List.get_mem directions _ hlen, List.get?_eq_get hlen⟩

open LocationHistoryService in
/-- C5 witness: at heading 260 the label is defined, 360-periodic and one of
the eight compass labels. -/
theorem compassLabel_periodic_nonneg_witness :
    (0 : ℚ) ≤ 260 ∧
    (getDirectionText 260 = getDirectionText (260 + 360) ∧
      ∃ d ∈ directions, getDirectionText 260 = some d) :=
  ⟨by norm_num, compassLabel_periodic_nonneg 260 (by norm_num)⟩

open LocationHistoryService in
/-- C5 counterexample: at heading `-100` the claim fails on the code —
`Math.round(-100 / 45) % 8 = -2`, a negative array index, so the label is
`undefined` (`none`): it is not 360-periodic (`h + 360 = 260` yields `"W"`)
and not one of the eight labels. -/
theorem compassLabel_negative_heading_undefined :
    getDirectionText (-100) ≠ getDirectionText ((-100 : ℚ) + 360) ∧
    getDirectionText (-100) = none ∧
    getDirectionText ((-100 : ℚ) + 360) = some "W" := by
  refine ⟨?_, ?_, ?_⟩ <;>
    · norm_num [LocationHistoryService.getDirectionText, jsRound,
        LocationHistoryService.directions]
      decide

/-! ### C7 — cache read semantics -/

open LocationCacheService in
/-- C7: for every key and read time `now`, `getAvailableDates` returns
absent when the key is missing or `now - insertedAt > ttl`; a lapsed entry
is deleted by the read and the read counts as a miss; a present unexpired
entry's value is returned, its `lastAccessed` is set to `now`, its
`accessCount` is incremented, and the read counts as a hit. -/
theorem cache_get_semantics (s : CacheState) (key : String) (now : ℤ)
    (hm : s.config.enableMetrics = true) :
    (jsGet s.availableDatesCache key = none →
      (getAvailableDates s key now).1 = none ∧
      (getAvailableDates s key now).2.metricsSignal.misses =
        s.metricsSignal.misses + 1 ∧
      (getAvailableDates s key now).2.metricsSignal.hits =
        s.metricsSignal.hits ∧
      (getAvailableDates s key now).2.availableDatesCache =
        s.availableDatesCache) ∧
    (∀ e, jsGet s.availableDatesCache key = some e →
      e.ttl < now - e.timestamp →
      (getAvailableDates s key now).1 = none ∧
      (getAvailableDates s key now).2.metricsSignal.misses =
        s.metricsSignal.misses + 1 ∧
      (getAvailableDates s key now).2.metricsSignal.hits =
        s.metricsSignal.hits ∧
      jsGet (getAvailableDates s key now).2.availableDatesCache key = none) ∧
    (∀ e, jsGet s.availableDatesCache key = some e →
      ¬(e.ttl < now - e.timestamp) →
      (getAvailableDates s key now).1 = some e.data ∧
      (getAvailableDates s key now).2.metricsSignal.hits =
        s.metricsSignal.hits + 1 ∧
      (getAvailableDates s key now).2.metricsSignal.misses =
        s.metricsSignal.misses ∧
      jsGet (getAvailableDates s key now).2.availableDatesCache key =
        some { e with accessCount := e.accessCount + 1,
                      lastAccessed := now }) := by
  refine ⟨fun hnone => ?_, fun e he hexp => ?_, fun e he hval => ?_⟩
  · simp [LocationCacheService.getAvailableDates, getCachedData, hnone,
      updateMetrics, updateEvictionMetrics, hm]
  · simp [LocationCacheService.getAvailableDates, getCachedData, he,
      isExpired, hexp, updateMetrics, updateEvictionMetrics, hm,
      jsGet_jsDelete_self]
  · simp [LocationCacheService.getAvailableDates, getCachedData, he,
      isExpired, hval, updateMetrics, updateEvictionMetrics, hm,
      jsGet_jsSet_self]

/-- A live availability entry used in concrete instantiations. -/
def validEntry : CacheEntry (List ℤ) :=
  { data := [1, 3, 5], timestamp := 0, ttl := 600000, accessCount := 1,
    lastAccessed := 0 }

/-- A cache-service state holding one live availability entry. -/
def cacheWithDates : CacheState :=
  { config := defaultConfig,
    availableDatesCache := [("7-2024-6", validEntry)],
    locationDataCache := [], metricsSignal := initialMetrics }

open LocationCacheService in
/-- C7 witness: reading the live entry at time 100 returns its data, counts
a hit, and bumps the entry's access statistics. -/
theorem cache_get_semantics_witness :
    cacheWithDates.config.enableMetrics = true ∧
    jsGet cacheWithDates.availableDatesCache "7-2024-6" = some validEntry ∧
    ¬(validEntry.ttl < (100 : ℤ) - validEntry.timestamp) ∧
    ((getAvailableDates cacheWithDates "7-2024-6" 100).1 =
        some validEntry.data ∧
      (getAvailableDates cacheWithDates "7-2024-6" 100).2.metricsSignal.hits =
        cacheWithDates.metricsSignal.hits + 1 ∧
      (getAvailableDates cacheWithDates "7-2024-6"
          100).2.metricsSignal.misses = cacheWithDates.metricsSignal.misses ∧
      jsGet (getAvailableDates cacheWithDates "7-2024-6"
          100).2.availableDatesCache "7-2024-6" =
        some { validEntry with accessCount := validEntry.accessCount + 1,
                               lastAccessed := 100 }) :=
  ⟨rfl, by decide, by decide,
    (cache_get_semantics cacheWithDates "7-2024-6" 100 rfl).2.2 validEntry
      (by decide) (by decide)⟩

/-! ### C10 — `has` on an expired entry -/

open LocationCacheService in
/-- Entries surviving the expiry sweep were already in the map. -/
theorem mem_removeExpiredFrom {α : Type} (now : ℤ)
    (m : List (String × CacheEntry α)) (kv : String × CacheEntry α)
    (h : kv ∈ (removeExpiredFrom now m).1) : kv ∈ m := by
  induction m with
  | nil => simp [removeExpiredFrom] at h
  | cons kv0 rest ih =>
      by_cases he : isExpired kv0.2 now
      · simp only [removeExpiredFrom, he, if_pos] at h
        exact List.mem_cons_of_mem _ (ih h)
      · simp only [removeExpiredFrom, he, if_neg, Bool.false_eq_true,
          not_false_eq_true, List.mem_cons] at h
        rcases h with h | h
        · exact h ▸ List.mem_cons_self _ _
        · exact List.mem_cons_of_mem _ (ih h)

open LocationCacheService in
/-- The expiry sweep removes the (unique) expired entry at a key. -/
theorem jsGet_removeExpiredFrom_expired {α : Type} (now : ℤ)
    (m : List (String × CacheEntry α)) (key : String) (e : CacheEntry α)
    (hnd : m.Pairwise (fun a b => a.1 ≠ b.1))
    (hget : jsGet m key = some e) (hexp : isExpired e now = true) :
    jsGet (removeExpiredFrom now m).1 key = none := by
  induction m with
  | nil => simp [jsGet] at hget
  | cons kv rest ih =>
      rcases List.pairwise_cons.1 hnd with ⟨hhead, htail⟩
      by_cases hk : kv.1 = key
      · have he : e = kv.2 := by
          simp only [jsGet, if_pos hk] at hget
          exact (Option.some_injective _ hget).symm
        have hkvexp : isExpired kv.2 now = true := he ▸ hexp
        have hdrop : (removeExpiredFrom now (kv :: rest)).1 =
            (removeExpiredFrom now rest).1 := by
          simp [removeExpiredFrom, hkvexp]
        rw [hdrop]
        exact jsGet_none_of_forall_ne _ _
          (fun kv' h' hh =>
            hhead kv' (mem_removeExpiredFrom now rest kv' h')
              (hk.trans hh.symm))
      · simp only [jsGet, if_neg hk] at hget
        by_cases he0 : isExpired kv.2 now
        · have hdrop : (removeExpiredFrom now (kv :: rest)).1 =
              (removeExpiredFrom now rest).1 := by
            simp [removeExpiredFrom, he0]
          rw [hdrop]
          exact ih htail hget
        · have hkeep : (removeExpiredFrom now (kv :: rest)).1 =
              kv :: (removeExpiredFrom now rest).1 := by
            simp [removeExpiredFrom, he0]
          simp only [hkeep, jsGet, if_neg hk]
          exact ih htail hget

open LocationCacheService in
/-- C10: for a key whose entry has lapsed, `hasLocationData` returns `false`
but changes nothing — the entry stays physically present and the metrics are
untouched — while a subsequent `getLocationData` read of that key, or an
expiry sweep (`clearExpired`), removes the entry. -/
theorem has_expired_entry_frame (s : CacheState) (key : String) (now : ℤ)
    (e : CacheEntry (List LocationPoint))
    (hget : jsGet s.locationDataCache key = some e)
    (hexp : e.ttl < now - e.timestamp)
    (hnd : s.locationDataCache.Pairwise (fun a b => a.1 ≠ b.1)) :
    (hasLocationData s key now).1 = false ∧
    (hasLocationData s key now).2 = s ∧
    jsGet (hasLocationData s key now).2.locationDataCache key = some e ∧
    jsGet ((LocationCacheService.getLocationData (hasLocationData s key
        now).2 key now).2).locationDataCache key = none ∧
    jsGet ((clearExpired (hasLocationData s key now).2
        now).2).locationDataCache key = none := by
  have hexpB : isExpired e now = true := by
    simp [LocationCacheService.isExpired, hexp]
  refine ⟨?_, rfl, hget, ?_, ?_⟩
  · simp [LocationCacheService.hasLocationData, hasValidCacheEntry, hget,
      hexpB]
  · simp [LocationCacheService.hasLocationData,
      LocationCacheService.getLocationData, getCachedData, hget, hexpB,
      jsGet_jsDelete_self]
  · simp only [LocationCacheService.hasLocationData, clearExpired]
    exact jsGet_removeExpiredFrom_expired now s.locationDataCache key e hnd
      hget hexpB

/-- A lapsed track-cache entry used in concrete instantiations. -/
def expiredEntry : CacheEntry (List LocationPoint) :=
  { data := [], timestamp := 0, ttl := 10, accessCount := 1,
    lastAccessed := 0 }

/-- A cache-service state holding one lapsed track entry. -/
def cacheWithExpired : CacheState :=
  { config := defaultConfig, availableDatesCache := [],
    locationDataCache := [("9-3", expiredEntry)],
    metricsSignal := initialMetrics }

open LocationCacheService in
/-- C10 witness: at time 100 the lapsed entry fails the `has` check yet
stays in place, and is removed by a read or a sweep. -/
theorem has_expired_entry_frame_witness :
    jsGet cacheWithExpired.locationDataCache "9-3" = some expiredEntry ∧
    expiredEntry.ttl < (100 : ℤ) - expiredEntry.timestamp ∧
    ((hasLocationData cacheWithExpired "9-3" 100).1 = false ∧
      (hasLocationData cacheWithExpired "9-3" 100).2 = cacheWithExpired ∧
      jsGet (hasLocationData cacheWithExpired "9-3"
          100).2.locationDataCache "9-3" = some expiredEntry ∧
      jsGet ((LocationCacheService.getLocationData (hasLocationData
          cacheWithExpired "9-3" 100).2 "9-3"
          100).2).locationDataCache "9-3" = none ∧
      jsGet ((clearExpired (hasLocationData cacheWithExpired "9-3" 100).2
          100).2).locationDataCache "9-3" = none) :=
  ⟨by decide, by decide,
    has_expired_entry_frame cacheWithExpired "9-3" 100 expiredEntry
      (by decide) (by decide) (by decide)⟩

/-! ### C4 — `loadTrack` failure path -/

open LocationHistoryService in
/-- C4 (amended): when the remote fetch fails after the retry policy is
exhausted (outcome `none`, with no physically present cache entry for the
key), the resulting state has an empty `currentTrack`, `lastError` set and
`loading` cleared, no cache entry is written for that key — so a subsequent
call for the same key contacts the remote again — and `currentStatistics`
retains its previous value (the source does not reset the statistics signal
on failure; see the counterexample). -/
theorem loadTrack_failure_state (dist : LocationPoint → LocationPoint → ℚ)
    (s : HistState) (targetId date now now2 : ℤ)
    (outcome2 : Option (List LocationPoint))
    (hmiss : jsGet s.cache.locationDataCache
      (mkLocationKey targetId date) = none) :
    (getLocationData dist s targetId date now none).2.2 = true ∧
    (getLocationData dist s targetId date now none).1.locationData = [] ∧
    (getLocationData dist s targetId date now none).1.error =
      some "Failed to load location data" ∧
    (getLocationData dist s targetId date now none).1.loading = false ∧
    (getLocationData dist s targetId date now none).1.statistics =
      s.statistics ∧
    (getLocationData dist s targetId date now none).1.lastUpdated =
      s.lastUpdated ∧
    jsGet (getLocationData dist s targetId date now
        none).1.cache.locationDataCache (mkLocationKey targetId date) =
      none ∧
    (getLocationData dist (getLocationData dist s targetId date now
        none).1 targetId date now2 outcome2).2.2 = true := by
  refine ⟨?_, ?_, ?_, ?_, ?_, ?_, ?_, ?_⟩ <;>
    simp only [LocationHistoryService.getLocationData,
      LocationCacheService.getLocationData,
      LocationCacheService.getCachedData, hmiss]
  all_goals
    cases outcome2 <;>
      simp [LocationHistoryService.getLocationData,
        LocationCacheService.getLocationData,
        LocationCacheService.getCachedData, hmiss]

open LocationHistoryService in
/-- C4 witness: from `histFixture` (empty cache) a failing load leaves an
empty track, a set error, nothing cached, and a re-contacted remote. -/
theorem loadTrack_failure_state_witness :
    jsGet histFixture.cache.locationDataCache (mkLocationKey 1 0) = none ∧
    ((getLocationData zeroDist histFixture 1 0 100 none).2.2 = true ∧
      (getLocationData zeroDist histFixture 1 0 100
          none).1.locationData = [] ∧
      (getLocationData zeroDist histFixture 1 0 100 none).1.error =
        some "Failed to load location data" ∧
      (getLocationData zeroDist histFixture 1 0 100 none).1.loading =
        false ∧
      (getLocationData zeroDist histFixture 1 0 100 none).1.statistics =
        histFixture.statistics ∧
      (getLocationData zeroDist histFixture 1 0 100 none).1.lastUpdated =
        histFixture.lastUpdated ∧
      jsGet (getLocationData zeroDist histFixture 1 0 100
          none).1.cache.locationDataCache (mkLocationKey 1 0) = none ∧
      (getLocationData zeroDist (getLocationData zeroDist histFixture 1 0
          100 none).1 1 0 200 (some [])).2.2 = true) :=
  ⟨rfl, loadTrack_failure_state zeroDist histFixture 1 0 100 200 (some [])
    rfl⟩

open LocationHistoryService in
/-- C4 counterexample: the claim additionally states that the statistics
become empty on failure; from `histFixture` (whose `statistics` is
`some sampleStats`) a failing load leaves them non-empty. -/
theorem loadTrack_failure_keeps_statistics :
    histFixture.statistics = some sampleStats ∧
    (getLocationData zeroDist histFixture 1 0 100 none).1.statistics ≠
      none := by
  constructor
  · rfl
  · simp [LocationHistoryService.getLocationData,
      LocationCacheService.getLocationData,
      LocationCacheService.getCachedData, histFixture, emptyCache, jsGet]

/-! ### C2 — `refreshData` clears the whole cache (code bug) -/

/-- The current selection's live track-cache entry in the C2 state. -/
def entryCur : CacheEntry (List LocationPoint) :=
  { data := [samplePoint], timestamp := 0, ttl := 1200000, accessCount := 1,
    lastAccessed := 0 }

/-- An unrelated live track-cache entry in the C2 state. -/
def entryOther : CacheEntry (List LocationPoint) :=
  { data := [], timestamp := 0, ttl := 1200000, accessCount := 1,
    lastAccessed := 0 }

open LocationHistoryService in
/-- A history-service state with device 1 / date 0 selected whose track
cache holds the current selection's entry and an unrelated entry, with
nonzero recorded metrics. -/
def refreshFixture : HistState :=
  { selectedDevice := some 1, selectedDate := some 0, availableDates := [],
    locationData := [samplePoint], loading := false, error := none,
    statistics := none, lastUpdated := none,
    cache :=
      { config := defaultConfig, availableDatesCache := [],
        locationDataCache :=
          [(mkLocationKey 1 0, entryCur), ("99-7", entryOther)],
        metricsSignal :=
          { hits := 3, misses := 1, evictions := 0, size := 0,
            hitRate := 0 } } }

open LocationHistoryService in
/-- C2 (code bug evidence): with a selection present, `refreshData` removes
the unrelated cache entry `"99-7"` and resets the hit counter — the source
calls `cacheService.clearAll()` (its own comment says “Clear cache for
current selection” and the computed `cacheKey` is left unused), instead of
removing just the current selection's key. -/
theorem refreshData_clears_entire_cache :
    jsGet refreshFixture.cache.locationDataCache "99-7" = some entryOther ∧
    refreshFixture.cache.metricsSignal.hits = 3 ∧
    jsGet (refreshData zeroDist refreshFixture 100
        (some [samplePoint])).1.cache.locationDataCache "99-7" = none ∧
    (refreshData zeroDist refreshFixture 100
        (some [samplePoint])).1.cache.metricsSignal.hits = 0 := by
  have hkey : mkLocationKey 1 0 = "1-0" := rfl
  have hne : ("1-0" : String) ≠ "99-7" := by decide
  refine ⟨by decide, rfl, ?_, ?_⟩ <;>
    simp [LocationHistoryService.refreshData, hkey, hne,
      LocationHistoryService.getLocationData,
      LocationCacheService.getLocationData,
      LocationCacheService.getCachedData, LocationCacheService.clearAll,
      LocationCacheService.setLocationData,
      LocationCacheService.setCachedData,
      LocationCacheService.updateMetrics,
      LocationCacheService.updateEvictionMetrics,
      LocationCacheService.evictLeastRecentlyUsed,
      LocationCacheService.lruFold, refreshFixture, defaultConfig,
      initialMetrics, LocationCacheService.resetMetrics, jsGet, jsSet,
      jsHas, emptyCache]

/-! ### C8 — track statistics -/

open LocationHistoryService in
/-- The enhanced per-point speeds are `Math.round(speed * 3.6)` pointwise
(independent of the distance function and of the predecessor). -/
theorem enhanceFrom_map_speedKmh (dist : LocationPoint → LocationPoint → ℚ)
    (prev : LocationPoint) (pts : List LocationPoint) :
    (enhanceFrom dist prev pts).map (fun p => p.speedKmh) =
      pts.map (fun p => jsRound (p.speed * (18 / 5))) := by
  induction pts generalizing prev with
  | nil => rfl
  | cons p rest ih => simp [LocationHistoryService.enhanceFrom,
      LocationHistoryService.enhancePoint, ih]

open LocationHistoryService in
/-- Pointwise speeds of `enhanceLocationData`. -/
theorem enhance_map_speedKmh (dist : LocationPoint → LocationPoint → ℚ)
    (pts : List LocationPoint) :
    (enhanceLocationData dist pts).map (fun p => p.speedKmh) =
      pts.map (fun p => jsRound (p.speed * (18 / 5))) := by
  cases pts with
  | nil => rfl
  | cons p rest => simp [LocationHistoryService.enhanceLocationData,
      LocationHistoryService.enhancePoint, enhanceFrom_map_speedKmh]

open LocationHistoryService in
/-- C8: the empty track yields the empty marker (`none`) and only the empty
track does; a single-sample track (with nonnegative speed) yields
`totalDistance = 0`, `duration = 0` and `maxSpeed = averageSpeed = ` that
sample's (km/h-converted) speed; and for every track the `averageSpeed` is
the mean over only the strictly positive per-sample speeds, falling back to
`0` when there are none. -/
theorem trackStatistics_spec (dist : LocationPoint → LocationPoint → ℚ) :
    (updateStatistics dist [] = none) ∧
    (∀ pts : List LocationPoint, updateStatistics dist pts = none →
      pts = []) ∧
    (∀ p : LocationPoint, 0 ≤ p.speed →
      (updateStatistics dist [p]).map (fun σ => σ.totalDistance) =
        some 0 ∧
      (updateStatistics dist [p]).map (fun σ => σ.duration) = some 0 ∧
      (updateStatistics dist [p]).map (fun σ => σ.maxSpeed) =
        some (jsRound (p.speed * (18 / 5))) ∧
      (updateStatistics dist [p]).map (fun σ => σ.averageSpeed) =
        some ((jsRound (p.speed * (18 / 5)) : ℚ))) ∧
    (∀ pts σ, updateStatistics dist pts = some σ →
      σ.averageSpeed =
        (if 0 < ((pts.map (fun p => jsRound (p.speed * (18 / 5)))).filter
            (fun v => 0 < v)).length then
          (((((pts.map (fun p => jsRound (p.speed * (18 / 5)))).filter
              (fun v => 0 < v)).foldl (· + ·) 0 : ℤ) : ℚ)) /
            ((((pts.map (fun p => jsRound (p.speed * (18 / 5)))).filter
              (fun v => 0 < v)).length : ℕ) : ℚ)
        else 0)) := by
  refine ⟨rfl, ?_, ?_, ?_⟩
  · intro pts h
    cases pts with
    | nil => rfl
    | cons p rest => simp [LocationHistoryService.updateStatistics] at h
  · intro p hp
    have hs0 : (0 : ℤ) ≤ jsRound (p.speed * (18 / 5)) := by
      have : (0 : ℚ) ≤ p.speed * (18 / 5) + 1 / 2 := by positivity
      unfold jsRound
      positivity
    rcases hs0.lt_or_eq with hlt | heq
    · refine ⟨?_, ?_, ?_, ?_⟩ <;>
        simp [LocationHistoryService.updateStatistics,
          LocationHistoryService.enhanceLocationData,
          LocationHistoryService.enhanceFrom,
          LocationHistoryService.enhancePoint,
          LocationHistoryService.maxList, hlt]
    · refine ⟨?_, ?_, ?_, ?_⟩ <;>
        simp [LocationHistoryService.updateStatistics,
          LocationHistoryService.enhanceLocationData,
          LocationHistoryService.enhanceFrom,
          LocationHistoryService.enhancePoint,
          LocationHistoryService.maxList, ← heq]
  · intro pts σ h
    cases pts with
    | nil => simp [LocationHistoryService.updateStatistics] at h
    | cons p rest =>
        have hspeeds := enhance_map_speedKmh dist (p :: rest)
        simp only [LocationHistoryService.updateStatistics] at h
        rw [Option.some_inj] at h
        subst h
        simp [hspeeds]

open LocationHistoryService in
/-- C8 witness: concrete single-sample track (speed 5 m/s, so 18 km/h). -/
theorem trackStatistics_spec_witness :
    updateStatistics zeroDist [] = none ∧
    (0 : ℚ) ≤ samplePoint.speed ∧
    ((updateStatistics zeroDist [samplePoint]).map
        (fun σ => σ.totalDistance) = some 0 ∧
      (updateStatistics zeroDist [samplePoint]).map (fun σ => σ.duration) =
        some 0 ∧
      (updateStatistics zeroDist [samplePoint]).map (fun σ => σ.maxSpeed) =
        some (jsRound (samplePoint.speed * (18 / 5))) ∧
      (updateStatistics zeroDist [samplePoint]).map
        (fun σ => σ.averageSpeed) =
        some ((jsRound (samplePoint.speed * (18 / 5)) : ℚ))) :=
  ⟨(trackStatistics_spec zeroDist).1, by norm_num [samplePoint],
    (trackStatistics_spec zeroDist).2.2.1 samplePoint
      (by norm_num [samplePoint])⟩

/-! ### C9 — prefetch frame -/

open LocationHistoryService in
open LocationCacheService in
/-- C9: a prefetch is issued for an adjacent date (offset −1 or +1) exactly
when the track cache holds no unexpired entry for that key; a prefetch's
result is written only to the cache — `currentTrack`, `currentStatistics`,
`loading`, `lastError` and the rest of the foreground state are unchanged —
and prefetch failures are swallowed: if both fetches fail, even the cache is
unchanged (and no error is surfaced). -/
theorem prefetch_frame_spec (s : HistState) (targetId date now : ℤ)
    (o1 o2 : Option (List LocationPoint)) :
    (prefetchAdjacentDates s targetId date now o1 o2).1.selectedDevice =
      s.selectedDevice ∧
    (prefetchAdjacentDates s targetId date now o1 o2).1.selectedDate =
      s.selectedDate ∧
    (prefetchAdjacentDates s targetId date now o1 o2).1.availableDates =
      s.availableDates ∧
    (prefetchAdjacentDates s targetId date now o1 o2).1.locationData =
      s.locationData ∧
    (prefetchAdjacentDates s targetId date now o1 o2).1.loading =
      s.loading ∧
    (prefetchAdjacentDates s targetId date now o1 o2).1.error = s.error ∧
    (prefetchAdjacentDates s targetId date now o1 o2).1.statistics =
      s.statistics ∧
    (prefetchAdjacentDates s targetId date now o1 o2).1.lastUpdated =
      s.lastUpdated ∧
    ((-1 : ℤ) ∈ (prefetchAdjacentDates s targetId date now o1 o2).2 ↔
      hasValidCacheEntry s.cache.locationDataCache
        (mkLocationKey targetId (date + (-1))) now = false) ∧
    ((1 : ℤ) ∈ (prefetchAdjacentDates s targetId date now o1 o2).2 ↔
      hasValidCacheEntry s.cache.locationDataCache
        (mkLocationKey targetId (date + 1)) now = false) ∧
    (o1 = none → o2 = none →
      (prefetchAdjacentDates s targetId date now o1 o2).1.cache =
        s.cache) := by
  cases hb1 : hasValidCacheEntry s.cache.locationDataCache
      (mkLocationKey targetId (date + (-1))) now <;>
    cases hb2 : hasValidCacheEntry s.cache.locationDataCache
        (mkLocationKey targetId (date + 1)) now <;>
    cases o1 <;> cases o2 <;>
      simp [LocationHistoryService.prefetchAdjacentDates, hb1, hb2]

open LocationHistoryService in
open LocationCacheService in
/-- C9 witness: from `histFixture` (empty track cache) both adjacent fetches
are issued, and with both failing the foreground state and the cache are
untouched. -/
theorem prefetch_frame_spec_witness :
    (prefetchAdjacentDates histFixture 1 0 100 none none).1.statistics =
      histFixture.statistics ∧
    ((-1 : ℤ) ∈ (prefetchAdjacentDates histFixture 1 0 100 none none).2) ∧
    (prefetchAdjacentDates histFixture 1 0 100 none none).1.cache =
      histFixture.cache :=
  ⟨(prefetch_frame_spec histFixture 1 0 100 none none).2.2.2.2.2.2.1,
    ((prefetch_frame_spec histFixture 1 0 100
        none none).2.2.2.2.2.2.2.2.1).mpr rfl,
    (prefetch_frame_spec histFixture 1 0 100
        none none).2.2.2.2.2.2.2.2.2.2 rfl rfl⟩

/-! ### C6 — LRU eviction -/

open LocationCacheService in
/-- One step of the `evictLeastRecentlyUsed` loop on a pair accumulator. -/
theorem lruFold_cons {α : Type} (kv : String × CacheEntry α)
    (rest : List (String × CacheEntry α)) (k0 : Option String) (t0 : ℤ) :
    lruFold (kv :: rest) (k0, t0) =
      lruFold rest
        (if kv.2.lastAccessed < t0 then (some kv.1, kv.2.lastAccessed)
         else (k0, t0)) := rfl

open LocationCacheService in
/-- If no entry is strictly older than the accumulator time, the loop keeps
the accumulator (this is the no-eviction case: `oldestTime` starts at
`Date.now()` and the comparison is strict). -/
theorem lruFold_ge {α : Type} (cache : List (String × CacheEntry α))
    (k0 : Option String) (t0 : ℤ)
    (h : ∀ kv ∈ cache, t0 ≤ kv.2.lastAccessed) :
    lruFold cache (k0, t0) = (k0, t0) := by
  induction cache generalizing k0 with
  | nil => rfl
  | cons kv rest ih =>
      rw [lruFold_cons, if_neg (not_lt.2 (h kv (List.mem_cons_self _ _)))]
      exact ih k0 (fun kv' h' => h kv' (List.mem_cons_of_mem _ h'))

open LocationCacheService in
/-- If some entry is strictly older than the accumulator time, the loop
returns the first entry (in insertion order) attaining the minimum
`lastAccessed`. -/
theorem lruFold_min {α : Type} (cache : List (String × CacheEntry α))
    (k0 : Option String) (t0 : ℤ)
    (h : ∃ kv ∈ cache, kv.2.lastAccessed < t0) :
    ∃ l1 kv l2, cache = l1 ++ kv :: l2 ∧
      lruFold cache (k0, t0) = (some kv.1, kv.2.lastAccessed) ∧
      kv.2.lastAccessed < t0 ∧
      (∀ kv' ∈ cache, kv.2.lastAccessed ≤ kv'.2.lastAccessed) ∧
      (∀ kv' ∈ l1, kv.2.lastAccessed < kv'.2.lastAccessed) := by
  induction cache generalizing k0 t0 with
  | nil => simp at h
  | cons kv rest ih =>
      by_cases hlt : kv.2.lastAccessed < t0
      · by_cases hr : ∃ kv' ∈ rest, kv'.2.lastAccessed < kv.2.lastAccessed
        · obtain ⟨l1', kvm, l2', hsplit, hfold, hmlt, hmin, hstrict⟩ :=
            ih (some kv.1) kv.2.lastAccessed hr
          refine ⟨kv :: l1', kvm, l2', by rw [List.cons_append, hsplit], ?_,
            lt_trans hmlt hlt, ?_, ?_⟩
          · rw [lruFold_cons, if_pos hlt]; exact hfold
          · intro kv' h'
            rcases List.mem_cons.1 h' with h0 | h0
            · exact h0 ▸ le_of_lt hmlt
            · exact hmin kv' h0
          · intro kv' h'
            rcases List.mem_cons.1 h' with h0 | h0
            · exact h0 ▸ hmlt
            · exact hstrict kv' h0
        · push_neg at hr
          refine ⟨[], kv, rest, rfl, ?_, hlt, ?_, by simp⟩
          · rw [lruFold_cons, if_pos hlt]
            exact lruFold_ge rest (some kv.1) kv.2.lastAccessed hr
          · intro kv' h'
            rcases List.mem_cons.1 h' with h0 | h0
            · exact h0 ▸ le_refl _
            · exact hr kv' h0
      · obtain ⟨kvw, hmem, hwlt⟩ := h
        have hwrest : kvw ∈ rest := by
          rcases List.mem_cons.1 hmem with h0 | h0
          · exact absurd (h0 ▸ hwlt) hlt
          · exact h0
        obtain ⟨l1', kvm, l2', hsplit, hfold, hmlt, hmin, hstrict⟩ :=
          ih k0 t0 ⟨kvw, hwrest, hwlt⟩
        have hle : t0 ≤ kv.2.lastAccessed := not_lt.1 hlt
        refine ⟨kv :: l1', kvm, l2', by rw [List.cons_append, hsplit], ?_,
          hmlt, ?_, ?_⟩
        · rw [lruFold_cons, if_neg hlt]; exact hfold
        · intro kv' h'
          rcases List.mem_cons.1 h' with h0 | h0
          · exact h0 ▸ le_of_lt (lt_of_lt_of_le hmlt hle)
          · exact hmin kv' h0
        · intro kv' h'
          rcases List.mem_cons.1 h' with h0 | h0
          · exact h0 ▸ lt_of_lt_of_le hmlt hle
          · exact hstrict kv' h0

open LocationCacheService in
/-- C6 (amended): inserting a new key into a cache at its configured
capacity evicts exactly one entry — the first (insertion order) among those
with the oldest `lastAccessed`, never the key being written — and leaves
every other entry unchanged, provided at least one entry was last accessed
strictly before the insertion instant and no stored key is the empty
string (the source's `if (oldestKey)` guard treats `""` as falsy; the
service's composite keys are never empty); when every entry was last
accessed at (or after) the insertion instant nothing is evicted (see the
counterexample). -/
theorem lru_eviction_spec {α : Type} (cfg : CacheConfig)
    (cache : List (String × CacheEntry α)) (key : String) (data : α)
    (ttl now : ℤ)
    (hnd : cache.Pairwise (fun a b => a.1 ≠ b.1))
    (hkeys : ∀ kv ∈ cache, kv.1 ≠ "")
    (hfull : cache.length = cfg.maxSize)
    (hnew : jsGet cache key = none)
    (hex : ∃ kv ∈ cache, kv.2.lastAccessed < now) :
    (setCachedData cfg cache key data ttl now).2 = 1 ∧
    (setCachedData cfg cache key data ttl now).1.length = cfg.maxSize ∧
    jsGet (setCachedData cfg cache key data ttl now).1 key =
      some { data := data, timestamp := now, ttl := ttl, accessCount := 1,
             lastAccessed := now } ∧
    ∃ l1 kv l2, cache = l1 ++ kv :: l2 ∧ kv.1 ≠ key ∧
      (∀ kv' ∈ cache, kv.2.lastAccessed ≤ kv'.2.lastAccessed) ∧
      (∀ kv' ∈ l1, kv.2.lastAccessed < kv'.2.lastAccessed) ∧
      jsGet (setCachedData cfg cache key data ttl now).1 kv.1 = none ∧
      (∀ k', k' ≠ kv.1 → k' ≠ key →
        jsGet (setCachedData cfg cache key data ttl now).1 k' =
          jsGet cache k') := by
  obtain ⟨l1, kvm, l2, hsplit, hfold, hmlt, hmin, hstrict⟩ :=
    lruFold_min cache none now hex
  have hkvm_mem : kvm ∈ cache := by
    rw [hsplit]
    exact List.mem_append.2 (Or.inr (List.mem_cons_self _ _))
  have hkvmkey : kvm.1 ≠ key := by
    intro hh
    have hsome := jsGet_isSome_of_mem cache kvm hkvm_mem
    rw [hh, hnew] at hsome
    simp at hsome
  have hevict : evictLeastRecentlyUsed cache now =
      (jsDelete cache kvm.1, 1) := by
    simp [LocationCacheService.evictLeastRecentlyUsed, hfold,
      hkeys kvm hkvm_mem]
  have hcond : cfg.maxSize ≤ cache.length ∧ ¬ jsHas cache key :=
    ⟨hfull ▸ le_refl _, by simp [jsHas, hnew]⟩
  have hset : setCachedData cfg cache key data ttl now =
      (jsSet (jsDelete cache kvm.1) key
        { data := data, timestamp := now, ttl := ttl, accessCount := 1,
          lastAccessed := now }, 1) := by
    simp only [LocationCacheService.setCachedData, if_pos hcond, hevict]
  have hdelget : jsGet (jsDelete cache kvm.1) key = none := by
    rw [jsGet_jsDelete_ne cache kvm.1 key (Ne.symm hkvmkey)]
    exact hnew
  refine ⟨by rw [hset], ?_, ?_, l1, kvm, l2, hsplit, hkvmkey, hmin,
    hstrict, ?_, ?_⟩
  · rw [hset]
    simp only [length_jsSet_new _ _ _ hdelget]
    have hdl := length_jsDelete_mem cache kvm.1 hnd
      (jsGet_isSome_of_mem cache kvm hkvm_mem)
    omega
  · rw [hset]
    exact jsGet_jsSet_self _ _ _
  · rw [hset]
    simp only
    rw [jsGet_jsSet_ne _ _ _ _ hkvmkey]
    exact jsGet_jsDelete_self _ _
  · intro k' hk1 hk2
    rw [hset]
    simp only
    rw [jsGet_jsSet_ne _ _ _ _ hk2, jsGet_jsDelete_ne _ _ _ hk1]

/-- The config after `updateConfig({maxSize: 2})`. -/
def cfg2 : CacheConfig := { defaultConfig with maxSize := 2 }

/-- A track entry last accessed at time 5. -/
def wEntry5 : CacheEntry (List ℤ) :=
  { data := [1], timestamp := 0, ttl := 1000, accessCount := 1,
    lastAccessed := 5 }

/-- A track entry last accessed at time 7. -/
def wEntry7 : CacheEntry (List ℤ) :=
  { data := [2], timestamp := 0, ttl := 1000, accessCount := 2,
    lastAccessed := 7 }

open LocationCacheService in
/-- C6 witness: a full (capacity 2) cache with entries last accessed at 5
and 7; inserting `"c"` at time 100 evicts exactly the oldest (`"a"`). -/
theorem lru_eviction_spec_witness :
    (setCachedData cfg2 [("a", wEntry5), ("b", wEntry7)] "c"
        ([9] : List ℤ) 10 100).2 = 1 ∧
    (setCachedData cfg2 [("a", wEntry5), ("b", wEntry7)] "c"
        ([9] : List ℤ) 10 100).1.length = cfg2.maxSize ∧
    jsGet (setCachedData cfg2 [("a", wEntry5), ("b", wEntry7)] "c"
        ([9] : List ℤ) 10 100).1 "c" =
      some { data := [9], timestamp := 100, ttl := 10, accessCount := 1,
             lastAccessed := 100 } ∧
    ∃ l1 kv l2,
      ([("a", wEntry5), ("b", wEntry7)] :
          List (String × CacheEntry (List ℤ))) = l1 ++ kv :: l2 ∧
      kv.1 ≠ "c" ∧
      (∀ kv' ∈ ([("a", wEntry5), ("b", wEntry7)] :
          List (String × CacheEntry (List ℤ))),
        kv.2.lastAccessed ≤ kv'.2.lastAccessed) ∧
      (∀ kv' ∈ l1, kv.2.lastAccessed < kv'.2.lastAccessed) ∧
      jsGet (setCachedData cfg2 [("a", wEntry5), ("b", wEntry7)] "c"
          ([9] : List ℤ) 10 100).1 kv.1 = none ∧
      (∀ k', k' ≠ kv.1 → k' ≠ "c" →
        jsGet (setCachedData cfg2 [("a", wEntry5), ("b", wEntry7)] "c"
            ([9] : List ℤ) 10 100).1 k' =
          jsGet [("a", wEntry5), ("b", wEntry7)] k') :=
  lru_eviction_spec cfg2 [("a", wEntry5), ("b", wEntry7)] "c" [9] 10 100
    (by simp [wEntry5, wEntry7]) (by decide) (by decide) (by decide)
    ⟨("a", wEntry5), by decide, by decide⟩

/-- First insertion of the C6 counterexample (capacity 2, time 100). -/
def lruStep1 : List (String × CacheEntry (List ℤ)) × Nat :=
  LocationCacheService.setCachedData cfg2 [] "a" [0] 10 100

/-- Second insertion of the C6 counterexample. -/
def lruStep2 : List (String × CacheEntry (List ℤ)) × Nat :=
  LocationCacheService.setCachedData cfg2 lruStep1.1 "b" [0] 10 100

/-- Third insertion of the C6 counterexample: the cache is full and `"c"`
is new, yet nothing is evicted. -/
def lruStep3 : List (String × CacheEntry (List ℤ)) × Nat :=
  LocationCacheService.setCachedData cfg2 lruStep2.1 "c" [0] 10 100

/-- C6 counterexample: inserting `maxEntries + 1 = 3` distinct keys, all in
the same millisecond (`Date.now() = 100`), leaves 3 entries present, not
`maxEntries = 2` — `evictLeastRecentlyUsed` starts `oldestTime` at
`Date.now()` with a strict comparison, so entries last accessed at the
current instant are never chosen and the third insert evicts nothing. -/
theorem lru_no_eviction_at_same_instant :
    cfg2.maxSize = 2 ∧
    lruStep2.1.length = 2 ∧
    lruStep3.2 = 0 ∧
    lruStep3.1.length = 3 := by decide

end Spec2Proof
